import Mathlib

/-!
Verification development for `mogreps_utils.py` of the `model_comparison`
repository.  The Python source is shallowly embedded: pure functions become
Lean functions, Python exceptions become an explicit error type carried in
`Except`, the iris cube objects become a concrete record of coordinate data,
and the external collaborators (file loading, grid unrotation, cropping) are
abstracted into an environment of possibly-failing functions.
-/

namespace Mogreps

/-- Python exception classes that can arise in the embedded code.
`indexError`/`attributeError` are the two classes caught by the pairing
driver; `valueError` is raised by `list.index` on a missing element, by
`int()` on a non-numeric string and by `min`/`max` on an empty sequence;
`keyError` stands for iris `CoordinateNotFoundError` (a `KeyError`
subclass); `nameError` stands for use of an unbound local variable. -/
inductive PyErr where
  | indexError
  | attributeError
  | valueError
  | keyError
  | nameError
deriving DecidableEq

/-- A named coordinate of an iris cube: `d.name()` and `d.points`
(the point values, modelled as integers). -/
structure Coord where
  name : String
  points : List Int
deriving DecidableEq

/-- An iris cube as far as this code observes it: its `name()` and its
list of coordinates (in the cube's coordinate iteration order). -/
structure Cube where
  name : String
  coords : List Coord
deriving DecidableEq

/-- `cube.coord(n)`: look up a coordinate by exact name (first match). -/
def Cube.coord (c : Cube) (n : String) : Option Coord :=
  c.coords.find? (fun d => d.name == n)

/-- `cube.extract(iris.Constraint(**\x7bn: v\x7d))`: restrict the cube to the
cells where coordinate `n` has value `v`.  Returns `none` (Python `None`)
when no cell matches, in particular when the coordinate is absent. -/
def Cube.extract (c : Cube) (n : String) (v : Int) : Option Cube :=
  match c.coord n with
  | none => none
  | some d =>
    if v ∈ d.points then
      some { c with coords :=
        c.coords.map (fun e => if e.name == n then { e with points := e.points.filter (fun p => p == v) } else e) }
    else none

/-- `cube.remove_coord(n)`: drop the coordinate named `n`. -/
def Cube.removeCoord (c : Cube) (n : String) : Cube :=
  { c with coords := c.coords.filter (fun d => d.name != n) }

/-- Python `min(xs)` on a nonempty sequence; `none` models the
`ValueError` raised on an empty one. -/
def pyMin : List Int → Option Int
  | [] => none
  | x :: xs => some (xs.foldl min x)

/-- Python `max(xs)` on a nonempty sequence; `none` models the
`ValueError` raised on an empty one. -/
def pyMax : List Int → Option Int
  | [] => none
  | x :: xs => some (xs.foldl max x)

/-- Anchored prefix test on character lists. -/
def startsWithCh : List Char → List Char → Bool
  | [], _ => true
  | _ :: _, [] => false
  | p :: ps, c :: cs => p == c && startsWithCh ps cs

/-- `re.match(pre + '.*', name)` succeeds exactly when `name` starts with
`pre`: `re.match` anchors at the beginning of the string and does not need
to consume all of it.  (`match.group(0)` is the whole name as long as the
name contains no newline, which iris coordinate names never do.) -/
def nameMatches (pre name : String) : Bool :=
  startsWithCh pre.toList name.toList

/-- The name left in the loop variable `name` after
`for d in cube.coords(): if re.match(pre + '.*', d.name()): name = ...`:
the name of the last coordinate whose name starts with `pre`
(`re.match` anchors at the start of the string, so it is a prefix test,
and each later match overwrites the earlier binding). -/
def lastMatchName (l : List Coord) (pre : String) : Option String :=
  match l with
  | [] => none
  | d :: t =>
    match lastMatchName t pre with
    | some nm => some nm
    | none => if nameMatches pre d.name then some d.name else none

/-- `get_ground_level` (mogreps_utils.py lines 36-62).  Extract the level
with minimum height, else maximum pressure; if neither kind of coordinate
is present return the cube unchanged.  The `Except` layer carries the
Python exceptions the body can raise; the `nameError`/`keyError` branches
are unreachable when the guards hold but mirror the unguarded lookups. -/
def get_ground_level (c : Cube) : Except PyErr (Option Cube × Option String) :=
  if c.coords.any (fun d => nameMatches "height" d.name) then
    match lastMatchName c.coords "height" with
    | none => .error .nameError
    | some nm =>
      match c.coord nm with
      | none => .error .keyError
      | some vc =>
        match pyMin vc.points with
        | none => .error .valueError
        | some m => .ok (c.extract nm m, some nm)
  else if c.coords.any (fun d => nameMatches "pressure" d.name) then
    match lastMatchName c.coords "pressure" with
    | none => .error .nameError
    | some nm =>
      match c.coord nm with
      | none => .error .keyError
      | some vc =>
        match pyMax vc.points with
        | none => .error .valueError
        | some m => .ok (c.extract nm m, some nm)
  else .ok (some c, none)

/-- Python `s.split(sep)` for a one-character separator: splitting the
empty string gives `[""]`, and adjacent separators give empty segments. -/
def splitOnCh (sep : Char) : List Char → List (List Char)
  | [] => [[]]
  | c :: cs =>
    if c == sep then [] :: splitOnCh sep cs
    else
      match splitOnCh sep cs with
      | [] => [[c]]
      | h :: t => (c :: h) :: t

/-- `segs[-1].split('.')[0]`: the part of a segment before its first dot. -/
def stripExtSeg (l : List Char) : List Char :=
  (splitOnCh '.' l).headD []

/-- Whitespace stripped by Python `int()` around its argument. -/
def isPySpace (c : Char) : Bool :=
  c == ' ' || c == '\t' || c == '\n' || c == '\r' || c == '\x0b' || c == '\x0c'

/-- Value of a nonempty all-decimal-digit character list. -/
def digitsVal (l : List Char) : Option Nat :=
  match l with
  | [] => none
  | _ =>
    l.foldl (fun acc c =>
      acc.bind (fun n => if c.isDigit then some (10 * n + (c.toNat - 48)) else none))
      (some 0)

/-- Python `int(s)`: optional surrounding whitespace, optional sign, then a
nonempty run of decimal digits; `none` models the `ValueError` otherwise.
(Python also allows underscores between digits, which cannot occur here
since the segments come from splitting on underscores.) -/
def pyInt (l : List Char) : Option Int :=
  let t := ((l.dropWhile isPySpace).reverse.dropWhile isPySpace).reverse
  match t with
  | '+' :: ds => (digitsVal ds).map (fun n => (n : Int))
  | '-' :: ds => (digitsVal ds).map (fun n => -(n : Int))
  | ds => (digitsVal ds).map (fun n => (n : Int))

/-- The segment list manipulated by `get_info`: split the filename on
underscores, then strip the extension from the final segment. -/
def pySegs (fname : String) : List (List Char) :=
  let segs0 := splitOnCh '_' fname.toList
  segs0.dropLast ++ [stripExtSeg (segs0.getLastD [])]

/-- `get_info` (mogreps_utils.py lines 22-33).  Returns
(date string, runtime hour, ensemble member, lead-time hours).
`segs[-4]` raises `IndexError` when fewer than four segments exist
(checked before the integer conversions, matching Python's evaluation
order in `[segs[-4]] + [int(s) for s in segs[-3:]]`); a non-numeric
trailing segment raises `ValueError` from `int()`. -/
def get_info (fname : String) : Except PyErr (String × Int × Int × Int) :=
  let segs := pySegs fname
  if segs.length < 4 then .error .indexError
  else
    match segs.drop (segs.length - 3) with
    | [x, y, z] =>
      match pyInt x, pyInt y, pyInt z with
      | some a, some b, some c => .ok (String.mk (segs.getD (segs.length - 4) []), a, b, c)
      | _, _, _ => .error .valueError
    | _ => .error .indexError

/-- Decimal digit character. -/
def digitCh (n : Nat) : Char := Char.ofNat (48 + n)

/-- Fuel-driven decimal digit expansion (most significant digit first). -/
def natDigitsAux : Nat → Nat → List Char
  | 0, _ => []
  | fuel + 1, n =>
    if n < 10 then [digitCh n]
    else natDigitsAux fuel (n / 10) ++ [digitCh (n % 10)]

/-- Decimal digit characters of a natural number. -/
def natDigits (n : Nat) : List Char := natDigitsAux (n + 1) n

/-- Pad a character list on the left with zeros up to width `w`. -/
def padZeros (w : Nat) (l : List Char) : List Char :=
  List.replicate (w - l.length) '0' ++ l

/-- Python format spec `'\x7b:0wd\x7d'.format(n)`: decimal rendering of `n`
zero-padded to total width `w`, the width counting a leading minus sign. -/
def fmtZ (w : Nat) (n : Int) : String :=
  if n < 0 then String.mk ('-' :: padZeros (w - 1) (natDigits n.natAbs))
  else String.mk (padZeros w (natDigits n.natAbs))

/-- The expected global filename computed by the pairing driver
(mogreps_utils.py line 104) from parsed info (date, hour, member, lead):
run hour shifted back 3, lead shifted forward 3, hour and member formatted
with width-2 zero padding and lead with width-3 zero padding. -/
def globalFname (info : String × Int × Int × Int) : String :=
  "prods_op_mogreps-g_" ++ info.1 ++ "_" ++ fmtZ 2 (info.2.1 - 3) ++ "_"
    ++ fmtZ 2 info.2.2.1 ++ "_" ++ fmtZ 3 (info.2.2.2 + 3) ++ ".nc"

/-- Lines 102-104 of the driver: parse a regional filename and derive the
expected global filename (errors from `get_info` propagate). -/
def derived_global (fname : String) : Except PyErr String :=
  (get_info fname).map globalFname

/-- The external collaborators of the pairing driver: `iris.load` on a
path, `unrotate` (rotated-pole reprojection) and `get_uk_from_global`
(cropping), each a blocking call that may raise. -/
structure Env where
  load : String → Except PyErr (List Cube)
  unrotate : Cube → Cube → Except PyErr Cube
  cropToBounds : Cube → Cube → Except PyErr Cube

/-- The body of the `try` block of `get_uk_global_pairs`
(mogreps_utils.py lines 108-126) for one regional/global filename pair.

Step by step, with the exception class of each failure made explicit:
load both files; find the index of `param` in the list of cube names
(`list.index` raises `ValueError` when absent); take the last time point
of the regional cube (`points[-1]` raises `IndexError` on an empty
coordinate, a missing `time` coordinate raises iris
`CoordinateNotFoundError`, a `KeyError`); extract that timestep from both
cubes (an operation on the `None` returned by a failed extraction raises
`AttributeError`); run the ground-level selection on both and remove the
reported vertical coordinate (guarded by Python truthiness, so `None` and
the empty string both skip the removal); unrotate the regional cube and
crop the global cube. -/
def processFile (env : Env) (param uk_path g_path uk_fname g_fname : String) :
    Except PyErr (Cube × Cube) := do
  let g_cubes ← env.load (g_path ++ g_fname)
  let uk_cubes ← env.load (uk_path ++ uk_fname)
  let uk_i ← match uk_cubes.findIdx? (fun c => c.name == param) with
    | some i => pure i
    | none => throw .valueError
  let g_i ← match g_cubes.findIdx? (fun c => c.name == param) with
    | some i => pure i
    | none => throw .valueError
  let uk_cube := uk_cubes.getD uk_i { name := "", coords := [] }
  let g_cube := g_cubes.getD g_i { name := "", coords := [] }
  let tc ← match uk_cube.coord "time" with
    | some d => pure d
    | none => throw .keyError
  let t ← match tc.points.getLast? with
    | some v => pure v
    | none => throw .indexError
  let uk_cube1 := uk_cube.extract "time" t
  let tc2 ← match uk_cube1 with
    | none => throw .attributeError
    | some c =>
      match c.coord "time" with
      | some d => pure d
      | none => throw .keyError
  let t2 ← match tc2.points.getLast? with
    | some v => pure v
    | none => throw .indexError
  let g_cube1 := g_cube.extract "time" t2
  let uk_sel ← match uk_cube1 with
    | none => throw .attributeError
    | some c => get_ground_level c
  let uk_cube2 ← match uk_sel.2 with
    | none => pure uk_sel.1
    | some "" => pure uk_sel.1
    | some h =>
      match uk_sel.1 with
      | none => throw .attributeError
      | some c => pure (some (c.removeCoord h))
  let g_sel ← match g_cube1 with
    | none => throw .attributeError
    | some c => get_ground_level c
  let g_cube2 ← match g_sel.2 with
    | none => pure g_sel.1
    | some "" => pure g_sel.1
    | some h =>
      match g_sel.1 with
      | none => throw .attributeError
      | some c => pure (some (c.removeCoord h))
  let uk_c ← match uk_cube2 with
    | none => throw .attributeError
    | some c => pure c
  let g_c ← match g_cube2 with
    | none => throw .attributeError
    | some c => pure c
  let uk_unrotate ← env.unrotate uk_c g_c
  let g_cube_uk ← env.cropToBounds g_c uk_unrotate
  pure (uk_unrotate, g_cube_uk)

/-- The loop of `get_uk_global_pairs` (mogreps_utils.py lines 101-128),
carrying the two accumulated output lists.  `get_info` is called outside
the `try` block, so its failures propagate; a derived global filename
absent from `g_files` skips the file; a body failure of a caught class
skips the file; any other body failure aborts the whole call. -/
def pairsLoop (env : Env) (param : String) (g_files : List String) (up gp : String) :
    List String → List Cube → List Cube → Except PyErr (List Cube × List Cube)
  | [], uks, gs => .ok (uks, gs)
  | fname :: rest, uks, gs => do
    let info ← get_info fname
    let g_fname := globalFname info
    if g_fname ∈ g_files then
      match processFile env param up gp fname g_fname with
      | .ok (u, g) => pairsLoop env param g_files up gp rest (uks ++ [u]) (gs ++ [g])
      | .error e =>
        if e = .indexError ∨ e = .attributeError then
          pairsLoop env param g_files up gp rest uks gs
        else .error e
    else pairsLoop env param g_files up gp rest uks gs

/-- `get_uk_global_pairs` (mogreps_utils.py lines 96-129): return the two
lists of matching regional and global cubes for the given parameter. -/
def get_uk_global_pairs (env : Env) (param : String)
    (uk_files g_files : List String) (uk_path g_path : String) :
    Except PyErr (List Cube × List Cube) :=
  pairsLoop env param g_files uk_path g_path uk_files [] []

/-- Specification-side description of what one regional filename
contributes to the driver's output: `none` when the file is skipped
(global counterpart absent, or a caught per-pair failure), the produced
pair otherwise.  Used to state order preservation of the outputs. -/
def fileOutcome (env : Env) (param : String) (g_files : List String)
    (up gp : String) (f : String) : Option (Cube × Cube) :=
  match get_info f with
  | .error _ => none
  | .ok info =>
    if globalFname info ∈ g_files then
      match processFile env param up gp f (globalFname info) with
      | .ok p => some p
      | .error _ => none
    else none

/-- Specification-side rendering of a two-digit zero-padded decimal. -/
def twoDigit (n : Nat) : String :=
  String.mk [digitCh (n / 10), digitCh (n % 10)]

/-- Specification-side rendering of a three-digit zero-padded decimal. -/
def threeDigit (n : Nat) : String :=
  String.mk [digitCh (n / 100), digitCh (n / 10 % 10), digitCh (n % 10)]


theorem foldlMin_le (xs : List Int) :
    ∀ x : Int, xs.foldl min x ≤ x ∧ ∀ p ∈ xs, xs.foldl min x ≤ p := by
  induction xs with
  | nil =>
    intro x
    exact ⟨le_refl x, by intro p hp; cases hp⟩
  | cons y ys ih =>
    intro x
    simp only [List.foldl_cons]
    refine ⟨le_trans (ih (min x y)).1 (min_le_left x y), ?_⟩
    intro p hp
    rcases List.mem_cons.mp hp with h | h
    · subst h
      exact le_trans (ih (min x p)).1 (min_le_right x p)
    · exact (ih (min x y)).2 p h

theorem foldlMin_mem (xs : List Int) :
    ∀ x : Int, xs.foldl min x = x ∨ xs.foldl min x ∈ xs := by
  induction xs with
  | nil => intro x; exact Or.inl rfl
  | cons y ys ih =>
    intro x
    simp only [List.foldl_cons]
    rcases ih (min x y) with h | h
    · rcases min_choice x y with hc | hc
      · exact Or.inl (h.trans hc)
      · exact Or.inr (List.mem_cons.mpr (Or.inl (h.trans hc)))
    · exact Or.inr (List.mem_cons.mpr (Or.inr h))

theorem pyMin_spec (l : List Int) (m : Int) (h : pyMin l = some m) :
    m ∈ l ∧ ∀ p ∈ l, m ≤ p := by
  cases l with
  | nil => cases h
  | cons x xs =>
    have hm : m = xs.foldl min x := by
      simpa [pyMin] using h.symm
    subst hm
    constructor
    · rcases foldlMin_mem xs x with h1 | h1
      · rw [h1]; exact List.mem_cons_self x xs
      · exact List.mem_cons.mpr (Or.inr h1)
    · intro p hp
      rcases List.mem_cons.mp hp with h1 | h1
      · exact h1 ▸ (foldlMin_le xs x).1
      · exact (foldlMin_le xs x).2 p h1

theorem foldlMax_ge (xs : List Int) :
    ∀ x : Int, x ≤ xs.foldl max x ∧ ∀ p ∈ xs, p ≤ xs.foldl max x := by
  induction xs with
  | nil =>
    intro x
    exact ⟨le_refl x, by intro p hp; cases hp⟩
  | cons y ys ih =>
    intro x
    simp only [List.foldl_cons]
    refine ⟨le_trans (le_max_left x y) (ih (max x y)).1, ?_⟩
    intro p hp
    rcases List.mem_cons.mp hp with h | h
    · subst h
      exact le_trans (le_max_right x p) (ih (max x p)).1
    · exact (ih (max x y)).2 p h

theorem foldlMax_mem (xs : List Int) :
    ∀ x : Int, xs.foldl max x = x ∨ xs.foldl max x ∈ xs := by
  induction xs with
  | nil => intro x; exact Or.inl rfl
  | cons y ys ih =>
    intro x
    simp only [List.foldl_cons]
    rcases ih (max x y) with h | h
    · rcases max_choice x y with hc | hc
      · exact Or.inl (h.trans hc)
      · exact Or.inr (List.mem_cons.mpr (Or.inl (h.trans hc)))
    · exact Or.inr (List.mem_cons.mpr (Or.inr h))

theorem pyMax_spec (l : List Int) (m : Int) (h : pyMax l = some m) :
    m ∈ l ∧ ∀ p ∈ l, p ≤ m := by
  cases l with
  | nil => cases h
  | cons x xs =>
    have hm : m = xs.foldl max x := by
      simpa [pyMax] using h.symm
    subst hm
    constructor
    · rcases foldlMax_mem xs x with h1 | h1
      · rw [h1]; exact List.mem_cons_self x xs
      · exact List.mem_cons.mpr (Or.inr h1)
    · intro p hp
      rcases List.mem_cons.mp hp with h1 | h1
      · exact h1 ▸ (foldlMax_ge xs x).1
      · exact (foldlMax_ge xs x).2 p h1

theorem lastMatchName_eq (pre : String) :
    ∀ l : List Coord,
      lastMatchName l pre =
        ((l.filter fun e => nameMatches pre e.name).getLast?).map Coord.name := by
  intro l
  induction l with
  | nil => rfl
  | cons d t ih =>
    rw [lastMatchName, ih, List.filter_cons]
    by_cases hd : nameMatches pre d.name
    · simp only [hd, if_true]
      cases hft : t.filter (fun e => nameMatches pre e.name) with
      | nil => simp
      | cons x xs =>
        rw [List.getLast?_cons_cons]
        obtain ⟨y, hy⟩ : ∃ y, (x :: xs).getLast? = some y := ⟨_, rfl⟩
        rw [hy]
        simp
    · simp only [hd, if_false, Bool.false_eq_true]
      cases hft : (t.filter (fun e => nameMatches pre e.name)).getLast? with
      | none => simp [hd]
      | some y => simp

theorem find_name_nodup :
    ∀ (l : List Coord) (d : Coord), (l.map Coord.name).Nodup → d ∈ l →
      l.find? (fun e => e.name == d.name) = some d := by
  intro l
  induction l with
  | nil => intro d _ h; cases h
  | cons e t ih =>
    intro d hnd hd
    rw [List.map_cons, List.nodup_cons] at hnd
    by_cases he : e.name = d.name
    · rcases List.mem_cons.mp hd with h | h
      · subst h
        exact List.find?_cons_of_pos _ (by simp)
      · exact absurd (he ▸ List.mem_map.mpr ⟨d, h, rfl⟩) hnd.1
    · have hdt : d ∈ t := by
        rcases List.mem_cons.mp hd with h | h
        · exact absurd (h ▸ rfl) he
        · exact h
      rw [List.find?_cons_of_neg _ (by simp [he])]
      exact ih d hnd.2 hdt

theorem ground_height (c : Cube) (d : Coord) (m : Int)
    (hnd : (c.coords.map Coord.name).Nodup)
    (hlast : (c.coords.filter fun e => nameMatches "height" e.name).getLast? = some d)
    (hm : pyMin d.points = some m) :
    get_ground_level c = .ok (c.extract d.name m, some d.name) := by
  have hmem' : d ∈ c.coords.filter fun e => nameMatches "height" e.name :=
    List.mem_of_mem_getLast? hlast
  have hmem : d ∈ c.coords := (List.mem_filter.mp hmem').1
  have hpre : nameMatches "height" d.name = true := (List.mem_filter.mp hmem').2
  have hany : (c.coords.any fun e => nameMatches "height" e.name) = true :=
    List.any_eq_true.mpr ⟨d, hmem, hpre⟩
  have hlm : lastMatchName c.coords "height" = some d.name := by
    rw [lastMatchName_eq, hlast]; rfl
  have hco : c.coord d.name = some d := find_name_nodup _ _ hnd hmem
  simp [get_ground_level, hany, hlm, hco, hm]

theorem ground_pressure (c : Cube) (d : Coord) (m : Int)
    (hnd : (c.coords.map Coord.name).Nodup)
    (hnoh : ∀ e ∈ c.coords, nameMatches "height" e.name = false)
    (hlast : (c.coords.filter fun e => nameMatches "pressure" e.name).getLast? = some d)
    (hm : pyMax d.points = some m) :
    get_ground_level c = .ok (c.extract d.name m, some d.name) := by
  have hmem' : d ∈ c.coords.filter fun e => nameMatches "pressure" e.name :=
    List.mem_of_mem_getLast? hlast
  have hmem : d ∈ c.coords := (List.mem_filter.mp hmem').1
  have hpre : nameMatches "pressure" d.name = true := (List.mem_filter.mp hmem').2
  have hanyh : (c.coords.any fun e => nameMatches "height" e.name) = false := by
    simp only [List.any_eq_false]
    intro e hme
    simp [hnoh e hme]
  have hany : (c.coords.any fun e => nameMatches "pressure" e.name) = true :=
    List.any_eq_true.mpr ⟨d, hmem, hpre⟩
  have hlm : lastMatchName c.coords "pressure" = some d.name := by
    rw [lastMatchName_eq, hlast]; rfl
  have hco : c.coord d.name = some d := find_name_nodup _ _ hnd hmem
  simp [get_ground_level, hanyh, hany, hlm, hco, hm]

/-- C6: for every field (with distinct coordinate names and nonempty
point lists) that has at least one coordinate whose name starts with
"height", `get_ground_level` returns the field sliced to the level whose
value of that height coordinate is the minimum of the coordinate's
values, together with the name of that coordinate; the height rule takes
precedence over the pressure rule (no hypothesis excludes pressure
coordinates). -/
theorem c6_height_min (c : Cube)
    (hnd : (c.coords.map Coord.name).Nodup)
    (hpts : ∀ d ∈ c.coords, d.points ≠ [])
    (hh : ∃ d ∈ c.coords, nameMatches "height" d.name = true) :
    ∃ d ∈ c.coords, nameMatches "height" d.name = true ∧
      ∃ m, m ∈ d.points ∧ (∀ p ∈ d.points, m ≤ p) ∧
        get_ground_level c = .ok (c.extract d.name m, some d.name) := by
  obtain ⟨e, he, hepre⟩ := hh
  have hne : (c.coords.filter fun x => nameMatches "height" x.name) ≠ [] := by
    intro hcon
    have hmem : e ∈ c.coords.filter fun x => nameMatches "height" x.name :=
      List.mem_filter.mpr ⟨he, hepre⟩
    rw [hcon] at hmem
    cases hmem
  obtain ⟨d, hd⟩ : ∃ d, (c.coords.filter fun x => nameMatches "height" x.name).getLast? = some d := by
    cases hq : (c.coords.filter fun x => nameMatches "height" x.name).getLast? with
    | none => exact absurd (List.getLast?_eq_none_iff.mp hq) hne
    | some y => exact ⟨y, rfl⟩
  have hmem' := List.mem_filter.mp (List.mem_of_mem_getLast? hd)
  obtain ⟨m, hm⟩ : ∃ m, pyMin d.points = some m := by
    cases hp : d.points with
    | nil => exact absurd hp (hpts d hmem'.1)
    | cons x xs => exact ⟨_, rfl⟩
  exact ⟨d, hmem'.1, hmem'.2, m, (pyMin_spec _ _ hm).1, (pyMin_spec _ _ hm).2,
    ground_height c d m hnd hd hm⟩

/-- C7: for every field (with distinct coordinate names and nonempty
point lists) that has no coordinate whose name starts with "height" but
at least one whose name starts with "pressure", `get_ground_level`
returns the field sliced to the level whose value of that pressure
coordinate is the maximum of the coordinate's values, together with the
name of that coordinate. -/
theorem c7_pressure_max (c : Cube)
    (hnd : (c.coords.map Coord.name).Nodup)
    (hpts : ∀ d ∈ c.coords, d.points ≠ [])
    (hnoh : ∀ d ∈ c.coords, nameMatches "height" d.name = false)
    (hp : ∃ d ∈ c.coords, nameMatches "pressure" d.name = true) :
    ∃ d ∈ c.coords, nameMatches "pressure" d.name = true ∧
      ∃ m, m ∈ d.points ∧ (∀ p ∈ d.points, p ≤ m) ∧
        get_ground_level c = .ok (c.extract d.name m, some d.name) := by
  obtain ⟨e, he, hepre⟩ := hp
  have hne : (c.coords.filter fun x => nameMatches "pressure" x.name) ≠ [] := by
    intro hcon
    have hmem : e ∈ c.coords.filter fun x => nameMatches "pressure" x.name :=
      List.mem_filter.mpr ⟨he, hepre⟩
    rw [hcon] at hmem
    cases hmem
  obtain ⟨d, hd⟩ : ∃ d, (c.coords.filter fun x => nameMatches "pressure" x.name).getLast? = some d := by
    cases hq : (c.coords.filter fun x => nameMatches "pressure" x.name).getLast? with
    | none => exact absurd (List.getLast?_eq_none_iff.mp hq) hne
    | some y => exact ⟨y, rfl⟩
  have hmem' := List.mem_filter.mp (List.mem_of_mem_getLast? hd)
  obtain ⟨m, hm⟩ : ∃ m, pyMax d.points = some m := by
    cases hq : d.points with
    | nil => exact absurd hq (hpts d hmem'.1)
    | cons x xs => exact ⟨_, rfl⟩
  exact ⟨d, hmem'.1, hmem'.2, m, (pyMax_spec _ _ hm).1, (pyMax_spec _ _ hm).2,
    ground_pressure c d m hnd hnoh hd hm⟩

/-- C8: for every field in which more than one coordinate name matches
the selected prefix ("height", or "pressure" when no height coordinate
exists), `get_ground_level` uses the last matching coordinate in the
field's coordinate iteration order both to choose the level (minimum for
height, maximum for pressure) and as the returned coordinate name. -/
theorem c8_last_match_wins :
    (∀ (c : Cube) (d : Coord) (m : Int),
        (c.coords.map Coord.name).Nodup →
        1 < (c.coords.filter fun e => nameMatches "height" e.name).length →
        (c.coords.filter fun e => nameMatches "height" e.name).getLast? = some d →
        pyMin d.points = some m →
        get_ground_level c = .ok (c.extract d.name m, some d.name)) ∧
    (∀ (c : Cube) (d : Coord) (m : Int),
        (c.coords.map Coord.name).Nodup →
        (∀ e ∈ c.coords, nameMatches "height" e.name = false) →
        1 < (c.coords.filter fun e => nameMatches "pressure" e.name).length →
        (c.coords.filter fun e => nameMatches "pressure" e.name).getLast? = some d →
        pyMax d.points = some m →
        get_ground_level c = .ok (c.extract d.name m, some d.name)) := by
  constructor
  · intro c d m hnd _ hlast hm
    exact ground_height c d m hnd hlast hm
  · intro c d m hnd hnoh _ hlast hm
    exact ground_pressure c d m hnd hnoh hlast hm

/-- C9: for every field with no coordinate whose name starts with
"height" and none starting with "pressure", `get_ground_level` acts as
the identity: it returns the input field unchanged paired with no
coordinate name. -/
theorem c9_identity (c : Cube)
    (h1 : ∀ d ∈ c.coords, nameMatches "height" d.name = false)
    (h2 : ∀ d ∈ c.coords, nameMatches "pressure" d.name = false) :
    get_ground_level c = .ok (some c, none) := by
  have ha1 : (c.coords.any fun d => nameMatches "height" d.name) = false := by
    simp only [List.any_eq_false]
    intro e hme
    simp [h1 e hme]
  have ha2 : (c.coords.any fun d => nameMatches "pressure" d.name) = false := by
    simp only [List.any_eq_false]
    intro e hme
    simp [h2 e hme]
  simp [get_ground_level, ha1, ha2]

def cubeW6 : Cube :=
  { name := "air_temperature"
    coords := [{ name := "time", points := [0] },
               { name := "height_a", points := [10, 2] },
               { name := "pressure_p", points := [5] }] }

theorem c6_witness :
    ∃ d ∈ cubeW6.coords, nameMatches "height" d.name = true ∧
      ∃ m, m ∈ d.points ∧ (∀ p ∈ d.points, m ≤ p) ∧
        get_ground_level cubeW6 = .ok (cubeW6.extract d.name m, some d.name) :=
  c6_height_min cubeW6 (by decide) (by decide) (by decide)

def cubeW7 : Cube :=
  { name := "air_temperature"
    coords := [{ name := "time", points := [0] },
               { name := "pressure_p", points := [3, 9, 4] }] }

theorem c7_witness :
    ∃ d ∈ cubeW7.coords, nameMatches "pressure" d.name = true ∧
      ∃ m, m ∈ d.points ∧ (∀ p ∈ d.points, p ≤ m) ∧
        get_ground_level cubeW7 = .ok (cubeW7.extract d.name m, some d.name) :=
  c7_pressure_max cubeW7 (by decide) (by decide) (by decide) (by decide)

def cubeW8h : Cube :=
  { name := "x"
    coords := [{ name := "height_a", points := [4, 6] },
               { name := "height_b", points := [9, 1] }] }

def cubeW8p : Cube :=
  { name := "x"
    coords := [{ name := "pressure_a", points := [4, 6] },
               { name := "pressure_b", points := [9, 1] }] }

theorem c8_witness :
    get_ground_level cubeW8h =
      .ok (cubeW8h.extract "height_b" 1, some "height_b") ∧
    get_ground_level cubeW8p =
      .ok (cubeW8p.extract "pressure_b" 9, some "pressure_b") :=
  ⟨c8_last_match_wins.1 cubeW8h { name := "height_b", points := [9, 1] } 1
      (by decide) (by decide) (by decide) (by decide),
   c8_last_match_wins.2 cubeW8p { name := "pressure_b", points := [9, 1] } 9
      (by decide) (by decide) (by decide) (by decide) (by decide)⟩

def cubeW9 : Cube :=
  { name := "x"
    coords := [{ name := "time", points := [0] },
               { name := "latitude", points := [1, 2] }] }

theorem c9_witness : get_ground_level cubeW9 = .ok (some cubeW9, none) :=
  c9_identity cubeW9 (by decide) (by decide)


/-- C5: the filename parser applied to
"prods_op_mogreps-g_20160107_00_00_003.nc" returns exactly the quadruple
("20160107", 0, 0, 3): the 4th-from-last underscore segment kept as a
string and the last three segments (extension stripped from the final
one) parsed as the integers 0, 0 and 3. -/
theorem c5_parse_example :
    get_info "prods_op_mogreps-g_20160107_00_00_003.nc" = .ok ("20160107", 0, 0, 3) := by
  rfl

/-- C4: for every input string with fewer than 4 underscore-delimited
segments, and for every input string whose last three segments (after
stripping the extension from the final segment) are not all
integer-parseable, `get_info` fails with the malformed-input failure
class (an `IndexError` or a `ValueError`, the embedding of the spec's
`FormatError` class) rather than returning a result. -/
theorem c4_malformed_fails (fname : String)
    (h : (pySegs fname).length < 4 ∨
      ∃ s ∈ (pySegs fname).drop ((pySegs fname).length - 3), pyInt s = none) :
    get_info fname = .error .indexError ∨ get_info fname = .error .valueError := by
  by_cases h4 : (pySegs fname).length < 4
  · left
    simp [get_info, h4]
  · rcases h with h | ⟨s, hs, hnone⟩
    · exact absurd h h4
    · have hlen : ((pySegs fname).drop ((pySegs fname).length - 3)).length = 3 := by
        rw [List.length_drop]
        omega
      rcases hdrop : (pySegs fname).drop ((pySegs fname).length - 3) with _ | ⟨x, _ | ⟨y, _ | ⟨z, _ | _⟩⟩⟩ <;>
        rw [hdrop] at hlen <;> simp at hlen
      rw [hdrop] at hs
      right
      have hbad : pyInt x = none ∨ pyInt y = none ∨ pyInt z = none := by
        simp only [List.mem_cons, List.not_mem_nil, or_false] at hs
        rcases hs with hq | hq | hq
        · exact Or.inl (hq ▸ hnone)
        · exact Or.inr (Or.inl (hq ▸ hnone))
        · exact Or.inr (Or.inr (hq ▸ hnone))
      rcases hbad with hb | hb | hb
      · simp [get_info, h4, hdrop, hb]
      · cases hx : pyInt x <;> simp [get_info, h4, hdrop, hx, hb]
      · cases hx : pyInt x <;> cases hy : pyInt y <;>
          simp [get_info, h4, hdrop, hx, hy, hb]

theorem c4_witness :
    get_info "ab.nc" = .error .indexError ∨ get_info "ab.nc" = .error .valueError :=
  c4_malformed_fails "ab.nc" (Or.inl (by decide))


theorem natDigitsAux_small (fuel n : Nat) (hf : 0 < fuel) (h : n < 10) :
    natDigitsAux fuel n = [digitCh n] := by
  cases fuel with
  | zero => omega
  | succ k => simp [natDigitsAux, h]

theorem natDigitsAux_two (fuel n : Nat) (hf : 2 ≤ fuel) (h1 : 10 ≤ n) (h2 : n < 100) :
    natDigitsAux fuel n = [digitCh (n / 10), digitCh (n % 10)] := by
  cases fuel with
  | zero => omega
  | succ k =>
    rw [natDigitsAux, if_neg (by omega)]
    rw [natDigitsAux_small k (n / 10) (by omega) (by omega)]
    rfl

theorem natDigits_small (n : Nat) (h : n < 10) : natDigits n = [digitCh n] :=
  natDigitsAux_small (n + 1) n (by omega) h

theorem natDigits_two (n : Nat) (h1 : 10 ≤ n) (h2 : n < 100) :
    natDigits n = [digitCh (n / 10), digitCh (n % 10)] :=
  natDigitsAux_two (n + 1) n (by omega) h1 h2

theorem natDigits_three (n : Nat) (h1 : 100 ≤ n) (h2 : n < 1000) :
    natDigits n = [digitCh (n / 100), digitCh (n / 10 % 10), digitCh (n % 10)] := by
  rw [natDigits, natDigitsAux, if_neg (by omega)]
  rw [natDigitsAux_two n (n / 10) (by omega) (by omega) (by omega)]
  have h10 : n / 10 / 10 = n / 100 := by
    rw [Nat.div_div_eq_div_mul]
  have h11 : n / 10 % 10 = n / 10 % 10 := rfl
  rw [h10]
  rfl

theorem fmtZ_two (n : Int) (h0 : 0 ≤ n) (h : n < 100) : fmtZ 2 n = twoDigit n.toNat := by
  have hna : n.natAbs = n.toNat := by omega
  rw [fmtZ, if_neg (by omega), hna]
  by_cases hl : n.toNat < 10
  · rw [natDigits_small n.toNat hl, twoDigit]
    have hd : n.toNat / 10 = 0 := by omega
    have hm : n.toNat % 10 = n.toNat := by omega
    rw [hd, hm]
    rfl
  · rw [natDigits_two n.toNat (by omega) (by omega), twoDigit]
    rfl

theorem fmtZ_three (n : Int) (h0 : 0 ≤ n) (h : n < 1000) : fmtZ 3 n = threeDigit n.toNat := by
  have hna : n.natAbs = n.toNat := by omega
  rw [fmtZ, if_neg (by omega), hna]
  by_cases hl : n.toNat < 10
  · rw [natDigits_small n.toNat hl, threeDigit]
    have h1 : n.toNat / 100 = 0 := by omega
    have h2 : n.toNat / 10 % 10 = 0 := by omega
    have h3 : n.toNat % 10 = n.toNat := by omega
    rw [h1, h2, h3]
    rfl
  · by_cases hm : n.toNat < 100
    · rw [natDigits_two n.toNat (by omega) hm, threeDigit]
      have h1 : n.toNat / 100 = 0 := by omega
      have h2 : n.toNat / 10 % 10 = n.toNat / 10 := by omega
      rw [h1, h2]
      rfl
    · rw [natDigits_three n.toNat (by omega) (by omega), threeDigit]
      rfl

/-- C2: for every regional filename parsed to (date, run hour H, member
M, lead hours L), the pairing driver computes the expected global
filename with run hour H-3 and lead hours L+3, member unchanged, hour
and member rendered as 2-digit zero-padded decimals and lead hours as a
3-digit zero-padded decimal (the range hypotheses keep the shifted
values inside the widths the claim describes). -/
theorem c2_global_fname (fname date : String) (H M L : Int)
    (h : get_info fname = .ok (date, H, M, L))
    (hH1 : 3 ≤ H) (hH2 : H < 103) (hM1 : 0 ≤ M) (hM2 : M < 100)
    (hL1 : 0 ≤ L) (hL2 : L < 997) :
    derived_global fname =
      .ok ("prods_op_mogreps-g_" ++ date ++ "_" ++ twoDigit (H - 3).toNat ++ "_"
        ++ twoDigit M.toNat ++ "_" ++ threeDigit (L + 3).toNat ++ ".nc") := by
  rw [derived_global, h]
  show Except.ok (globalFname (date, H, M, L)) = _
  rw [globalFname]
  rw [fmtZ_two (H - 3) (by omega) (by omega)]
  rw [fmtZ_two M hM1 hM2]
  rw [fmtZ_three (L + 3) (by omega) (by omega)]

theorem c2_witness :
    derived_global "prods_op_mogreps-uk_20160107_06_00_003.nc" =
      .ok "prods_op_mogreps-g_20160107_03_00_006.nc" := by
  rw [c2_global_fname "prods_op_mogreps-uk_20160107_06_00_003.nc" "20160107" 6 0 3
    (by rfl) (by decide) (by decide) (by decide) (by decide) (by decide) (by decide)]
  rfl


theorem exceptBind_ok {α β : Type} (x : α) (f : α → Except PyErr β) :
    (Except.ok x : Except PyErr α) >>= f = f x := rfl

theorem exceptBind_err {α β : Type} (e : PyErr) (f : α → Except PyErr β) :
    (Except.error e : Except PyErr α) >>= f = .error e := rfl

theorem findIdxNone (param : String) :
    ∀ (l : List Cube) (i : Nat), (∀ c ∈ l, c.name ≠ param) →
      List.findIdx? (fun c => c.name == param) l i = none := by
  intro l
  induction l with
  | nil => intro i _; rfl
  | cons c t ih =>
    intro i h
    rw [List.findIdx?_cons, if_neg (by simp [h c (List.mem_cons_self c t)])]
    exact ih (i + 1) (fun d hd => h d (List.mem_cons.mpr (Or.inr hd)))

theorem pairsLoop_ok (env : Env) (param : String) (g_files : List String) (up gp : String) :
    ∀ (files : List String) (uks0 gs0 uks gs : List Cube),
      pairsLoop env param g_files up gp files uks0 gs0 = .ok (uks, gs) →
      uks = uks0 ++ (files.filterMap (fileOutcome env param g_files up gp)).map Prod.fst ∧
      gs = gs0 ++ (files.filterMap (fileOutcome env param g_files up gp)).map Prod.snd := by
  intro files
  induction files with
  | nil =>
    intro uks0 gs0 uks gs h
    rw [pairsLoop] at h
    injection h with h
    injection h with h1 h2
    simp [h1.symm, h2.symm]
  | cons f rest ih =>
    intro uks0 gs0 uks gs h
    rw [pairsLoop] at h
    cases hinfo : get_info f with
    | error e =>
      rw [hinfo, exceptBind_err] at h
      cases h
    | ok info =>
      rw [hinfo, exceptBind_ok] at h
      simp only [List.filterMap_cons, fileOutcome, hinfo]
      by_cases hgf : globalFname info ∈ g_files
      · rw [if_pos hgf] at h
        simp only [if_pos hgf]
        cases hpf : processFile env param up gp f (globalFname info) with
        | ok p =>
          rw [hpf] at h
          obtain ⟨u, g⟩ := p
          obtain ⟨h1, h2⟩ := ih (uks0 ++ [u]) (gs0 ++ [g]) uks gs (by simpa using h)
          constructor
          · rw [h1]; simp
          · rw [h2]; simp
        | error e =>
          rw [hpf] at h
          by_cases hc : e = .indexError ∨ e = .attributeError
          · obtain ⟨h1, h2⟩ := ih uks0 gs0 uks gs (by simpa [hc] using h)
            exact ⟨h1, h2⟩
          · simp [hc] at h
      · rw [if_neg hgf] at h
        simp only [if_neg hgf]
        exact ih uks0 gs0 uks gs h

/-- C10: whenever `get_uk_global_pairs` returns, its two output lists
have equal length — a regional cube is appended to the first list
exactly when its aligned global counterpart is appended to the second,
so the outputs can always be zipped into pairs at matching positions. -/
theorem c10_equal_lengths (env : Env) (param : String)
    (uk_files g_files : List String) (up gp : String) (uks gs : List Cube)
    (h : get_uk_global_pairs env param uk_files g_files up gp = .ok (uks, gs)) :
    uks.length = gs.length := by
  obtain ⟨h1, h2⟩ := pairsLoop_ok env param g_files up gp uk_files [] [] uks gs h
  rw [h1, h2]
  simp

/-- C3: a regional filename whose computed global filename is not in
the provided global-filename collection produces no output entry and
raises no error (the loop step is the identity on the accumulators), and
the entries that are produced appear in the two output sequences in the
same relative order as their regional filenames in the input sequence
(the outputs are the order-preserving `filterMap` of the per-file
outcomes). -/
theorem c3_skip_and_order :
    (∀ (env : Env) (param : String) (g_files : List String) (up gp f : String)
        (rest : List String) (uks gs : List Cube) (info : String × Int × Int × Int),
      get_info f = .ok info →
      globalFname info ∉ g_files →
      pairsLoop env param g_files up gp (f :: rest) uks gs =
        pairsLoop env param g_files up gp rest uks gs) ∧
    (∀ (env : Env) (param : String) (uk_files g_files : List String) (up gp : String)
        (uks gs : List Cube),
      get_uk_global_pairs env param uk_files g_files up gp = .ok (uks, gs) →
      uks = (uk_files.filterMap (fileOutcome env param g_files up gp)).map Prod.fst ∧
      gs = (uk_files.filterMap (fileOutcome env param g_files up gp)).map Prod.snd) := by
  constructor
  · intro env param g_files up gp f rest uks gs info hinfo hnot
    rw [pairsLoop, hinfo, exceptBind_ok, if_neg hnot]
  · intro env param uk_files g_files up gp uks gs h
    obtain ⟨h1, h2⟩ := pairsLoop_ok env param g_files up gp uk_files [] [] uks gs h
    simp at h1 h2
    exact ⟨h1, h2⟩

/-- C1 (amended): in the pairing driver loop, a per-pair failure is
suppressed (pair skipped, loop continues with the next file) exactly
when its class is `IndexError` or `AttributeError` — which covers a
missing attribute during level extraction but not parameter lookup: the
named parameter being absent from the loaded cube collection raises
`ValueError` from `list.index`, which is not caught and aborts the whole
call. -/
theorem c1_catch_policy :
    (∀ (env : Env) (param : String) (g_files : List String) (up gp f : String)
        (rest : List String) (uks gs : List Cube)
        (info : String × Int × Int × Int) (e : PyErr),
      get_info f = .ok info →
      globalFname info ∈ g_files →
      processFile env param up gp f (globalFname info) = .error e →
      pairsLoop env param g_files up gp (f :: rest) uks gs =
        if e = .indexError ∨ e = .attributeError then
          pairsLoop env param g_files up gp rest uks gs
        else .error e) ∧
    (∀ (env : Env) (param : String) (up gp uf gf : String)
        (gcubes ucubes : List Cube),
      env.load (gp ++ gf) = .ok gcubes →
      env.load (up ++ uf) = .ok ucubes →
      (∀ c ∈ ucubes, c.name ≠ param) →
      processFile env param up gp uf gf = .error .valueError) := by
  constructor
  · intro env param g_files up gp f rest uks gs info e hinfo hgf hpf
    rw [pairsLoop, hinfo, exceptBind_ok, if_pos hgf, hpf]
  · intro env param up gp uf gf gcubes ucubes hg hu hnames
    unfold processFile
    rw [hg, exceptBind_ok, hu, exceptBind_ok, findIdxNone param ucubes 0 hnames]
    rfl

def cubeOther : Cube :=
  { name := "other", coords := [{ name := "time", points := [0] }] }

def envNoParam : Env :=
  { load := fun _ => .ok [cubeOther]
    unrotate := fun u _ => .ok u
    cropToBounds := fun g _ => .ok g }

/-- C1 as stated is false: with the parameter absent from every loaded
cube collection, the pair is not silently skipped — the call fails with
`ValueError` instead of returning the empty pair of lists. -/
theorem c1_counterexample :
    get_uk_global_pairs envNoParam "air_temperature"
      ["prods_op_mogreps-uk_20160107_06_00_003.nc"]
      ["prods_op_mogreps-g_20160107_03_00_006.nc"] "uk/" "g/" =
      .error .valueError := by
  rfl

def envLoadFail : Env :=
  { load := fun _ => .error .keyError
    unrotate := fun u _ => .ok u
    cropToBounds := fun g _ => .ok g }

theorem c1_witness :
    pairsLoop envLoadFail "p" ["prods_op_mogreps-g_20160107_03_00_006.nc"] "u/" "g/"
      ["prods_op_mogreps-uk_20160107_06_00_003.nc"] [] [] = .error .keyError ∧
    processFile envNoParam "q" "u/" "g/" "a.nc" "b.nc" = .error .valueError := by
  constructor
  · have hA := c1_catch_policy.1 envLoadFail "p"
      ["prods_op_mogreps-g_20160107_03_00_006.nc"] "u/" "g/"
      "prods_op_mogreps-uk_20160107_06_00_003.nc" [] [] []
      ("20160107", 6, 0, 3) .keyError (by rfl) (by decide) (by rfl)
    simpa using hA
  · exact c1_catch_policy.2 envNoParam "q" "u/" "g/" "a.nc" "b.nc"
      [cubeOther] [cubeOther] (by rfl) (by rfl) (by decide)

def cubeLoaded : Cube :=
  { name := "air_temperature"
    coords := [{ name := "time", points := [5, 7] },
               { name := "height_lv", points := [10, 2] }] }

def envLoaded : Env :=
  { load := fun _ => .ok [cubeLoaded]
    unrotate := fun u _ => .ok u
    cropToBounds := fun g _ => .ok g }

def processedCube : Cube :=
  { name := "air_temperature", coords := [{ name := "time", points := [7] }] }

theorem c10_witness :
    List.length [processedCube] = List.length [processedCube] :=
  c10_equal_lengths envLoaded "air_temperature"
    ["prods_op_mogreps-uk_20160107_06_00_003.nc"]
    ["prods_op_mogreps-g_20160107_03_00_006.nc"] "u/" "g/"
    [processedCube] [processedCube] (by rfl)

theorem c3_witness :
    pairsLoop envLoaded "air_temperature" [] "u/" "g/"
      ["prods_op_mogreps-uk_20160107_06_00_003.nc"] [] [] =
      pairsLoop envLoaded "air_temperature" [] "u/" "g/" [] [] [] ∧
    [processedCube] =
      (["prods_op_mogreps-uk_20160107_06_00_003.nc"].filterMap
        (fileOutcome envLoaded "air_temperature"
          ["prods_op_mogreps-g_20160107_03_00_006.nc"] "u/" "g/")).map Prod.fst ∧
    [processedCube] =
      (["prods_op_mogreps-uk_20160107_06_00_003.nc"].filterMap
        (fileOutcome envLoaded "air_temperature"
          ["prods_op_mogreps-g_20160107_03_00_006.nc"] "u/" "g/")).map Prod.snd := by
  constructor
  · exact c3_skip_and_order.1 envLoaded "air_temperature" [] "u/" "g/"
      "prods_op_mogreps-uk_20160107_06_00_003.nc" [] [] [] ("20160107", 6, 0, 3)
      (by rfl) (by decide)
  · exact c3_skip_and_order.2 envLoaded "air_temperature"
      ["prods_op_mogreps-uk_20160107_06_00_003.nc"]
      ["prods_op_mogreps-g_20160107_03_00_006.nc"] "u/" "g/"
      [processedCube] [processedCube] (by rfl)

end Mogreps
